import Mathlib

/-!
The ws-udp-proxy bridge: a shallow embedding of `ws_udp_proxy.cpp`.

The bridge carries three UDP channels (CLOCK, CMD, DATA) over one WebSocket.
Two parts of the program are embedded here:

* `UdpThread::run`, the receive pump: the start-up drain loop and the polling
  loop, as functions of the datagrams and system-call outcomes it meets;
* the slots of `WsUdpProxy`, as functions from the object state (plus the
  file-level atomic `lastind`) to the new state and the list of effects.

`qDebug()` output is diagnostic only and is left out; `qWarning()` calls are
kept as events.  The double-precision division `delta / 1.0e9` is not
embedded: the signed 64-bit `delta` it is computed from is.
-/

namespace OsmoWeb

/-! ## Bytes, Qt strings and C strings -/

/-- One `char` of a buffer, read as an unsigned octet. -/
abbrev Byte := Fin 256

/-- One UTF-16 code unit of a `QString`. -/
abbrev QChar := Fin 65536

/-- A `QByteArray`: its `size()` bytes (embedded NULs allowed). -/
abbrev QByteArray := List Byte

/-- A `QString`: its sequence of UTF-16 code units. -/
abbrev QString := List QChar

/-- The conversion `QChar(uchar(b))` used by `QString::fromLatin1`. -/
def latin1ToQChar (b : Byte) : QChar := Fin.castLE (by decide) b

/-- The per-character rule of `QString::toLatin1`: code units above 0xFF
become a question mark. -/
def qcharToLatin1 (c : QChar) : Byte :=
  if h : c.val ≤ 0xff then ⟨c.val, by omega⟩ else 63

/-- The call `QString::fromLatin1(str, size)`: exactly `size` characters are
taken from `str`, NUL bytes included. -/
def fromLatin1 (str : List Byte) (size : Nat) : QString :=
  (str.take size).map latin1ToQChar

/-- The call `QString::toLatin1()`. -/
def toLatin1 (s : QString) : QByteArray := s.map qcharToLatin1

/-- The memory behind `QByteArray::data()`: the bytes followed by a NUL. -/
def data (ba : QByteArray) : List Byte := ba ++ [0]

/-- The C library `strncmp` on the memory starting at the two pointers: at
most `n` characters are compared and the comparison stops after a NUL. -/
def strncmp (s1 s2 : List Byte) : Nat → Int
  | 0 => 0
  | n + 1 =>
    let c1 := s1.headD 0
    let c2 := s2.headD 0
    if c1 ≠ c2 then (c1.val : Int) - (c2.val : Int)
    else if c1 = 0 then 0
    else strncmp s1.tail s2.tail n

/-- The string literal `"IND CLOCK"` (nine characters). -/
def IND_CLOCK : List Byte := [73, 78, 68, 32, 67, 76, 79, 67, 75]

/-! ## Channels -/

/-- The enumeration `eOsmoSockets` (without the count). -/
inductive eOsmoSockets
  | CLOCK
  | CMD
  | DATA
  deriving DecidableEq, Repr

/-- The messages passed to `qWarning()`. -/
inductive Warning
  | pollError
  | recvfromError
  | truncating
  | sendtoError
  | rejecting
  | threadNotFinished
  | webSocketClosed
  deriving DecidableEq, Repr

/-! ## The receive pump `UdpThread::run` -/

/-- The constant `BUFFER_SIZE` of `UdpThread::run`. -/
def BUFFER_SIZE : Nat := 2048

/-- What one `recvfrom(..., MSG_DONTWAIT, ...)` call meets: an error return
(also the empty queue, `EAGAIN`), or the datagram at the head of the queue. -/
inductive RecvOutcome
  | error
  | datagram (p : List Byte)
  deriving DecidableEq, Repr

/-- Copying `d` to the start of the buffer. -/
def writeBuf (buf d : List Byte) : List Byte := d ++ buf.drop d.length

/-- The system call `recvfrom(fd, buf, len, ...)` on a datagram socket: it
returns -1 on error, else the number of bytes stored, which is the datagram's
length capped at `len`; the rest of the datagram is dropped by the kernel. -/
def recvfrom (o : RecvOutcome) (buf : List Byte) (len : Nat) : Int × List Byte :=
  match o with
  | .error => (-1, buf)
  | .datagram p => (((p.take len).length : Nat), writeBuf buf (p.take len))

/-- The inner `do ... while (rs > 0)` of the start-up loop on one socket with
receive queue `q`: the queue left behind and the buffer. -/
def drainQueue : List (List Byte) → List Byte → List (List Byte) × List Byte
  | [], tmpbuff => ([], (recvfrom .error tmpbuff BUFFER_SIZE).2)
  | p :: rest, tmpbuff =>
    let r := recvfrom (.datagram p) tmpbuff BUFFER_SIZE
    if r.1 > 0 then drainQueue rest r.2 else (rest, r.2)

/-- The receive queues of the three sockets `fds_`. -/
structure Queues where
  CLOCK : List (List Byte)
  CMD : List (List Byte)
  DATA : List (List Byte)
  deriving DecidableEq, Repr

/-- The start-up loop `for (const auto fd : fds_)` of `UdpThread::run`.
Nothing is emitted in it. -/
def drain (q : Queues) (tmpbuff : List Byte) : Queues × List Byte :=
  let r0 := drainQueue q.CLOCK tmpbuff
  let r1 := drainQueue q.CMD r0.2
  let r2 := drainQueue q.DATA r1.2
  (⟨r0.1, r1.1, r2.1⟩, r2.2)

/-- What the pump sends out: the two signals and its warnings. -/
inductive PumpEvent
  | WSWriteText (s : QString)
  | WSWriteData (b : QByteArray)
  | qWarning (w : Warning)
  deriving DecidableEq, Repr

/-- One entry of the `pollfd` array after `poll`: whether `POLLIN` is set in
`revents`, and what a `recvfrom` on the socket meets. -/
structure PollFd where
  POLLIN : Bool
  recv : RecvOutcome
  deriving DecidableEq, Repr

/-- The return of `poll`: negative, zero, or positive with the three
`pollfd` entries filled. -/
inductive PollOutcome
  | error
  | timeout
  | ready (clock cmd data : PollFd)
  deriving DecidableEq, Repr

/-- What one turn of the `while` loop meets. -/
structure PollCycle where
  isInterruptionRequested : Bool
  poll : PollOutcome
  deriving DecidableEq, Repr

/-- The body of `for (int j = 0; j < SocketsCount; j++)` for one `j`. -/
def handleSocket (j : eOsmoSockets) (fd : PollFd) (tmpbuff : List Byte) :
    List PumpEvent × List Byte :=
  if fd.POLLIN then
    let r := recvfrom fd.recv tmpbuff BUFFER_SIZE
    let rs : Int := r.1
    let tmpbuff := r.2
    if rs < 0 then ([.qWarning .recvfromError], tmpbuff)
    else
      let over : Bool := decide (rs ≥ (BUFFER_SIZE : Int))
      let rs : Int := if over then (BUFFER_SIZE : Int) - 1 else rs
      let tmpbuff := tmpbuff.set rs.toNat 0
      let warn : List PumpEvent := if over then [.qWarning .truncating] else []
      if j = .CLOCK ∨ j = .CMD then
        (warn ++ [.WSWriteText (fromLatin1 tmpbuff rs.toNat)], tmpbuff)
      else if j = .DATA then
        (warn ++ [.WSWriteData (tmpbuff.take rs.toNat)], tmpbuff)
      else (warn, tmpbuff)
  else ([], tmpbuff)

/-- The loop `for (int j = 0; j < SocketsCount; j++)` over the sockets. -/
def forSockets : List (eOsmoSockets × PollFd) → List Byte → List PumpEvent × List Byte
  | [], tmpbuff => ([], tmpbuff)
  | (j, fd) :: rest, tmpbuff =>
    let r := handleSocket j fd tmpbuff
    let r2 := forSockets rest r.2
    (r.1 ++ r2.1, r2.2)

/-- How the polling loop stands after the cycles it was given. -/
inductive PumpExit
  | running
  | interrupted
  | returned
  deriving DecidableEq, Repr

/-- The loop `while (!isInterruptionRequested())` of `UdpThread::run` over
the cycles it meets: the events sent and how the loop stands at the end. -/
def pollLoop : List PollCycle → List Byte → List PumpEvent × PumpExit
  | [], _ => ([], .running)
  | c :: rest, tmpbuff =>
    if c.isInterruptionRequested then ([], .interrupted)
    else
      match c.poll with
      | .error => ([.qWarning .pollError], .returned)
      | .timeout => pollLoop rest tmpbuff
      | .ready clock cmd data =>
        let r := forSockets [(.CLOCK, clock), (.CMD, cmd), (.DATA, data)] tmpbuff
        let r2 := pollLoop rest r.2
        (r.1 ++ r2.1, r2.2)

/-- The whole of `UdpThread::run`: the drain, then the polling loop. -/
def run (q : Queues) (tmpbuff : List Byte) (cycles : List PollCycle) :
    Queues × List PumpEvent × PumpExit :=
  let d := drain q tmpbuff
  (d.1, pollLoop cycles d.2)

/-- The tunnel frames among the pump's events. -/
def PumpEvent.isFrame : PumpEvent → Bool
  | .WSWriteText _ => true
  | .WSWriteData _ => true
  | .qWarning _ => false

/-! ## The object `WsUdpProxy` and its slots -/

/-- The result of `clock_gettime`: the fields of `struct timespec`. -/
structure timespec where
  tv_sec : Int
  tv_nsec : Int
  deriving DecidableEq, Repr

/-- The value `getTimestamp` stores in `out`:
`static_cast<uint64_t>(ts.tv_sec) * 1000000000 + ts.tv_nsec`, in unsigned
64-bit arithmetic. -/
def getTimestamp (ts : timespec) : Nat :=
  (((ts.tv_sec % 2 ^ 64) * 1000000000 + ts.tv_nsec) % 2 ^ 64).toNat

/-- Unsigned 64-bit subtraction `a - b`. -/
def sub64 (a b : Nat) : Nat := (a % 2 ^ 64 + 2 ^ 64 - b % 2 ^ 64) % 2 ^ 64

/-- The conversion of a `uint64_t` to `int64_t` (two's complement). -/
def toInt64 (n : Nat) : Int :=
  if n % 2 ^ 64 < 2 ^ 63 then ((n % 2 ^ 64 : Nat) : Int) else ((n % 2 ^ 64 : Nat) : Int) - 2 ^ 64

/-- A `QWebSocket` the proxy can point at: its own member `webSocket_`, or a
connection handed out by `nextPendingConnection()`. -/
inductive QWebSocketRef
  | webSocket_
  | pending (id : Nat)
  deriving DecidableEq, Repr

/-- The mutable state: the members `ws_` and `udpThread_` (`none` is
`nullptr`), the mode flag, and the file-level atomic `lastind`.  A `UdpThread`
object is named by its allocation number; `threadsCreated` counts the
`new UdpThread` calls so far. -/
structure WsUdpProxy where
  isClientMode_ : Bool
  ws_ : Option QWebSocketRef
  udpThread_ : Option Nat
  threadsCreated : Nat
  lastind : Nat
  deriving DecidableEq, Repr

/-- What a slot does to the outside. -/
inductive Effect
  | closed
  | connectSlots (s : QWebSocketRef)
  | socketClose (s : QWebSocketRef)
  | threadStart (t : Nat)
  | requestInterruption (t : Nat)
  | terminate (t : Nat)
  | deleteThread (t : Nat)
  | sendto (sockIdx : eOsmoSockets) (buf : QByteArray) (dontwait : Bool)
  | sendTextMessage (s : QString)
  | sendBinaryMessage (b : QByteArray)
  | qWarning (w : Warning)
  deriving DecidableEq, Repr

/-- The slot `WsUdpProxy::WSWriteText`. -/
def WSWriteText (st : WsUdpProxy) (Data : QString) : WsUdpProxy × List Effect :=
  if st.ws_.isSome then (st, [.sendTextMessage Data]) else (st, [])

/-- The slot `WsUdpProxy::WSWriteData`. -/
def WSWriteData (st : WsUdpProxy) (Data : QByteArray) : WsUdpProxy × List Effect :=
  if st.ws_.isSome then (st, [.sendBinaryMessage Data]) else (st, [])

/-- The slot `WsUdpProxy::socketDisconnected`; `waitOk` is the return of
`udpThread_->wait(5000)`. -/
def socketDisconnected (st : WsUdpProxy) (waitOk : Bool) : WsUdpProxy × List Effect :=
  match st.udpThread_ with
  | some t =>
    ({ st with udpThread_ := none, ws_ := none },
      [.requestInterruption t] ++
      (if waitOk then [] else [.qWarning .threadNotFinished, .terminate t]) ++
      [.deleteThread t])
  | none => ({ st with ws_ := none }, [])

/-- The slot `WsUdpProxy::onNewConnection`; `pSocket` is the connection
returned by `nextPendingConnection()`. -/
def onNewConnection (st : WsUdpProxy) (pSocket : Nat) : WsUdpProxy × List Effect :=
  if st.ws_ ≠ none then
    (st, [.qWarning .rejecting, .socketClose (.pending pSocket)])
  else
    ({ st with
        lastind := 0,
        ws_ := some (.pending pSocket),
        udpThread_ := some st.threadsCreated,
        threadsCreated := st.threadsCreated + 1 },
      [.connectSlots (.pending pSocket), .threadStart st.threadsCreated])

/-- The slot `WsUdpProxy::onConnected`. -/
def onConnected (st : WsUdpProxy) : WsUdpProxy × List Effect :=
  ({ st with
      ws_ := some .webSocket_,
      udpThread_ := some st.threadsCreated,
      threadsCreated := st.threadsCreated + 1 },
    [.connectSlots .webSocket_, .threadStart st.threadsCreated])

/-- The slot `WsUdpProxy::onClosed`. -/
def onClosed (st : WsUdpProxy) : WsUdpProxy × List Effect :=
  (st, (if st.isClientMode_ then [.qWarning .webSocketClosed] else []) ++ [.closed])

/-- What `onTextMessageReceived` leaves behind: the state, the effects, the
socket index chosen, and the signed `delta` of the clock branch (`none` on
the other branch, where `fdelta = 0`). -/
structure TextResult where
  st : WsUdpProxy
  effects : List Effect
  sockIdx : eOsmoSockets
  delta : Option Int
  deriving DecidableEq, Repr

/-- The slot `WsUdpProxy::onTextMessageReceived`; `ts` is what
`clock_gettime` returns and `res` the return of `sendto`. -/
def onTextMessageReceived (st : WsUdpProxy) (ts : timespec) (message : QString) (res : Int) :
    TextResult :=
  let ba := toLatin1 message
  let rtm := getTimestamp ts
  let buf := data ba
  let sz := ba.length
  let warn : List Effect := if res < 0 then [.qWarning .sendtoError] else []
  if strncmp buf (data IND_CLOCK) 9 = 0 then
    let lastValue := st.lastind
    let delta := toInt64 (sub64 rtm lastValue)
    { st := { st with lastind := rtm },
      effects := [.sendto .CLOCK (buf.take sz) true] ++ warn,
      sockIdx := .CLOCK,
      delta := some delta }
  else
    { st := st,
      effects := [.sendto .CMD (buf.take sz) true] ++ warn,
      sockIdx := .CMD,
      delta := none }

/-- The slot `WsUdpProxy::onBinaryMessageReceived`; `res` is the return of
`sendto`. -/
def onBinaryMessageReceived (st : WsUdpProxy) (message : QByteArray) (res : Int) :
    WsUdpProxy × List Effect :=
  (st, [.sendto .DATA ((data message).take message.length) false] ++
    (if res < 0 then [.qWarning .sendtoError] else []))

/-- The slots of `WsUdpProxy`, with what each is called with. -/
inductive Slot
  | onConnected
  | onClosed
  | onTextMessageReceived (ts : timespec) (message : QString) (res : Int)
  | onBinaryMessageReceived (message : QByteArray) (res : Int)
  | onNewConnection (pSocket : Nat)
  | socketDisconnected (waitOk : Bool)
  | WSWriteText (Data : QString)
  | WSWriteData (Data : QByteArray)
  deriving DecidableEq, Repr

/-- Running one slot. -/
def dispatch (st : WsUdpProxy) : Slot → WsUdpProxy × List Effect
  | .onConnected => onConnected st
  | .onClosed => onClosed st
  | .onTextMessageReceived ts message res =>
    ((onTextMessageReceived st ts message res).st, (onTextMessageReceived st ts message res).effects)
  | .onBinaryMessageReceived message res => onBinaryMessageReceived st message res
  | .onNewConnection pSocket => onNewConnection st pSocket
  | .socketDisconnected waitOk => socketDisconnected st waitOk
  | .WSWriteText d => WSWriteText st d
  | .WSWriteData d => WSWriteData st d

/-- The UDP sends among the effects of a slot. -/
def Effect.isSendto : Effect → Bool
  | .sendto _ _ _ => true
  | _ => false

/-- The text `"IND CLOCK"` as a `QString`. -/
def IND_CLOCK_text : QString := IND_CLOCK.map latin1ToQChar

/-! ## What the forwarding claim expects of the pump -/

/-- The frame expected for a datagram `p` read on channel `k`, in the words of
the specification: a text frame for CLOCK and CMD and a binary frame for
DATA, holding `p` when it has at most 2047 bytes and its first 2047 bytes
otherwise. -/
def expectedFrame (k : eOsmoSockets) (p : List Byte) : PumpEvent :=
  if k = .DATA then .WSWriteData (if p.length ≤ 2047 then p else p.take 2047)
  else .WSWriteText ((if p.length ≤ 2047 then p else p.take 2047).map latin1ToQChar)

/-- The datagram read on channel `k` from one `pollfd` entry, if any: the
socket is readable and `recvfrom` returns a datagram. -/
def readOn (k : eOsmoSockets) (fd : PollFd) : List (eOsmoSockets × List Byte) :=
  match fd.POLLIN, fd.recv with
  | true, .datagram p => [(k, p)]
  | _, _ => []

/-- The datagrams read by the polling loop over the cycles it meets, each
with the channel of the socket it was read on, in the order CLOCK, CMD, DATA
within a cycle; reading ends with the loop. -/
def datagramsRead : List PollCycle → List (eOsmoSockets × List Byte)
  | [] => []
  | c :: rest =>
    match c.isInterruptionRequested, c.poll with
    | true, _ => []
    | false, .error => []
    | false, .timeout => datagramsRead rest
    | false, .ready clock cmd data =>
      readOn .CLOCK clock ++ readOn .CMD cmd ++ readOn .DATA data ++ datagramsRead rest

/-- The return of `poll` when only the socket of channel `k` is readable and
holds the datagram `p`. -/
def readyOnly (k : eOsmoSockets) (p : List Byte) : PollOutcome :=
  .ready
    (if k = .CLOCK then ⟨true, .datagram p⟩ else ⟨false, .error⟩)
    (if k = .CMD then ⟨true, .datagram p⟩ else ⟨false, .error⟩)
    (if k = .DATA then ⟨true, .datagram p⟩ else ⟨false, .error⟩)

/-! ## Buffers and Latin-1 -/

theorem take_set_self (l : List Byte) (n : Nat) (b : Byte) : (l.set n b).take n = l.take n := by
  induction l generalizing n with
  | nil => simp
  | cons a t ih =>
    cases n with
    | zero => simp
    | succ m => simp [List.set, ih]

theorem take_writeBuf (buf d : List Byte) (n : Nat) (h : n ≤ d.length) :
    (writeBuf buf d).take n = d.take n := by
  unfold writeBuf
  rw [List.take_append_of_le_length h]

theorem qcharToLatin1_latin1ToQChar (b : Byte) : qcharToLatin1 (latin1ToQChar b) = b := by
  have hb := b.isLt
  unfold qcharToLatin1 latin1ToQChar
  have : (Fin.castLE (by decide : 256 ≤ 65536) b).val ≤ 0xff := by
    simp; omega
  rw [dif_pos this]
  ext
  simp

theorem toLatin1_fromLatin1 (p : List Byte) (n : Nat) : toLatin1 (fromLatin1 p n) = p.take n := by
  unfold toLatin1 fromLatin1
  rw [List.map_map]
  conv => rhs; rw [← List.map_id (p.take n)]
  apply List.map_congr_left
  intro b _
  simp [qcharToLatin1_latin1ToQChar]

theorem recv_take (buf p : List Byte) (n : Nat) (h : n ≤ (p.take BUFFER_SIZE).length) :
    (((writeBuf buf (p.take BUFFER_SIZE)).set n 0).take n) = p.take n := by
  rw [take_set_self, take_writeBuf _ _ _ h, List.take_take]
  have : n ≤ BUFFER_SIZE := by
    have := List.length_take_le BUFFER_SIZE p
    omega
  rw [Nat.min_eq_left this]

theorem handleSocket_datagram (k : eOsmoSockets) (p buf : List Byte) :
    (handleSocket k ⟨true, .datagram p⟩ buf).1 =
      (if BUFFER_SIZE ≤ p.length then [PumpEvent.qWarning .truncating] else []) ++
      [if k = .DATA then PumpEvent.WSWriteData (p.take (BUFFER_SIZE - 1))
       else PumpEvent.WSWriteText ((p.take (BUFFER_SIZE - 1)).map latin1ToQChar)] := by
  by_cases hlen : BUFFER_SIZE ≤ p.length
  · have hl : (p.take BUFFER_SIZE).length = BUFFER_SIZE := by
      rw [List.length_take]; exact Nat.min_eq_left hlen
    have hrt := recv_take buf p (BUFFER_SIZE - 1) (by rw [hl]; exact Nat.sub_le _ _)
    have e1 : ((BUFFER_SIZE : Int) - 1).toNat = BUFFER_SIZE - 1 := by decide
    have e0 : ¬ ((BUFFER_SIZE : Int) < 0) := by decide
    cases k <;>
      simp only [handleSocket, recvfrom, hl, if_pos hlen, fromLatin1, e1, hrt, if_neg e0] <;>
      simp <;>
      first
        | exact hrt
        | simpa using congrArg (List.map latin1ToQChar) hrt
  · have hlt : p.length < BUFFER_SIZE := Nat.lt_of_not_le hlen
    have hl : (p.take BUFFER_SIZE).length = p.length := by
      rw [List.length_take]; exact Nat.min_eq_right (Nat.le_of_lt hlt)
    have hrt := recv_take buf p p.length (by rw [hl])
    have hp : p.take (BUFFER_SIZE - 1) = p := List.take_of_length_le (by omega)
    have hp2 : p.take p.length = p := List.take_of_length_le (Nat.le_refl _)
    have hn : ¬ ((BUFFER_SIZE : Int) ≤ (p.length : Int)) := by omega
    have e0 : ¬ ((p.length : Int) < 0) := by omega
    have e2 : ((p.length : Int)).toNat = p.length := by simp
    rw [hp2] at hrt
    cases k <;>
      simp only [handleSocket, recvfrom, hl, if_neg hlen, fromLatin1, hp, if_neg e0, e2, hrt] <;>
      simp [hn] <;>
      first
        | exact hrt
        | simpa using congrArg (List.map latin1ToQChar) hrt
/-! ## The prefix test of `onTextMessageReceived` -/

theorem take_data (ba : QByteArray) : (data ba).take ba.length = ba := by
  unfold data
  rw [List.take_append_of_le_length (Nat.le_refl _), List.take_of_length_le (Nat.le_refl _)]

theorem strncmp_data_eq_zero_iff (lit ba : List Byte) (h : ∀ b ∈ lit, b ≠ 0) :
    strncmp (data ba) (data lit) lit.length = 0 ↔ lit <+: ba := by
  induction lit generalizing ba with
  | nil => simp [strncmp]
  | cons c t ih =>
    have hc : c ≠ 0 := h c (List.mem_cons_self _ _)
    have ht : ∀ b ∈ t, b ≠ 0 := fun b hb => h b (List.mem_cons_of_mem _ hb)
    cases ba with
    | nil =>
      have hne : (0 : Byte) ≠ c := fun e => hc e.symm
      have hv : ((c.val : Int)) ≠ 0 := by
        intro e
        apply hc
        ext
        simpa using e
      simp [strncmp, data, hne, hv]
    | cons a r =>
      by_cases hac : a = c
      · subst hac
        have := ih r ht
        simp only [data] at this
        simp [strncmp, data, hc, this]
      · have hv : ((a.val : Int)) - (c.val : Int) ≠ 0 := by
          intro e
          apply hac
          ext
          omega
        have hca : ¬ c = a := fun e => hac e.symm
        simp [strncmp, data, hac, hca, hv]

theorem qcharToLatin1_eq_iff (c : QChar) (b : Byte) (hb : b ≠ 63) :
    qcharToLatin1 c = b ↔ c = latin1ToQChar b := by
  constructor
  · intro h
    unfold qcharToLatin1 at h
    by_cases hc : c.val ≤ 0xff
    · rw [dif_pos hc] at h
      subst h
      ext
      simp [latin1ToQChar]
    · rw [dif_neg hc] at h
      exact absurd h.symm hb
  · intro h
    subst h
    exact qcharToLatin1_latin1ToQChar b

theorem prefix_toLatin1_iff (lit : List Byte) (m : QString) (h : ∀ b ∈ lit, b ≠ 63) :
    lit <+: toLatin1 m ↔ lit.map latin1ToQChar <+: m := by
  induction lit generalizing m with
  | nil => simp
  | cons c t ih =>
    have hc : c ≠ 63 := h c (List.mem_cons_self _ _)
    have ht : ∀ b ∈ t, b ≠ 63 := fun b hb => h b (List.mem_cons_of_mem _ hb)
    cases m with
    | nil => simp [toLatin1]
    | cons a r =>
      have := ih r ht
      simp only [toLatin1] at this
      simp only [toLatin1, List.map_cons, List.cons_prefix_cons, this]
      constructor
      · rintro ⟨e, hp⟩
        exact ⟨((qcharToLatin1_eq_iff a c hc).1 e.symm).symm, hp⟩
      · rintro ⟨e, hp⟩
        exact ⟨((qcharToLatin1_eq_iff a c hc).2 e.symm).symm, hp⟩

theorem strncmp_IND_CLOCK (m : QString) :
    strncmp (data (toLatin1 m)) (data IND_CLOCK) 9 = 0 ↔ IND_CLOCK_text <+: m := by
  have h9 : (9 : Nat) = IND_CLOCK.length := by decide
  have h0 : ∀ b ∈ IND_CLOCK, b ≠ 0 := by
    intro b hb
    simp only [IND_CLOCK, List.mem_cons, List.mem_singleton, List.not_mem_nil, or_false] at hb
    rcases hb with rfl | rfl | rfl | rfl | rfl | rfl | rfl | rfl | rfl <;> decide
  have h63 : ∀ b ∈ IND_CLOCK, b ≠ 63 := by
    intro b hb
    simp only [IND_CLOCK, List.mem_cons, List.mem_singleton, List.not_mem_nil, or_false] at hb
    rcases hb with rfl | rfl | rfl | rfl | rfl | rfl | rfl | rfl | rfl <;> decide
  rw [h9, strncmp_data_eq_zero_iff IND_CLOCK _ h0]
  exact prefix_toLatin1_iff IND_CLOCK m h63

theorem onText_effects (st : WsUdpProxy) (ts : timespec) (m : QString) (res : Int) :
    (onTextMessageReceived st ts m res).effects =
      [Effect.sendto (if IND_CLOCK_text <+: m then .CLOCK else .CMD) (toLatin1 m) true] ++
      (if res < 0 then [Effect.qWarning .sendtoError] else []) := by
  unfold onTextMessageReceived
  by_cases h : IND_CLOCK_text <+: m
  · have h2 := (strncmp_IND_CLOCK m).2 h
    simp only [h2, if_true, if_pos h, take_data]
  · have h2 : ¬ strncmp (data (toLatin1 m)) (data IND_CLOCK) 9 = 0 := fun e => h ((strncmp_IND_CLOCK m).1 e)
    simp only [if_neg h2, if_neg h, take_data]

theorem onText_sends (st : WsUdpProxy) (ts : timespec) (m : QString) (res : Int) :
    (onTextMessageReceived st ts m res).effects.filter Effect.isSendto =
      [Effect.sendto (if IND_CLOCK_text <+: m then .CLOCK else .CMD) (toLatin1 m) true] := by
  rw [onText_effects]
  by_cases h : res < 0 <;> simp [h, Effect.isSendto]

/-! ## Forwarding and routing -/

theorem map_val_latin1 (q : List Byte) :
    (q.map latin1ToQChar).map Fin.val = q.map Fin.val := by
  rw [List.map_map]
  apply List.map_congr_left
  intro b _
  simp [latin1ToQChar]

theorem toLatin1_val (m : QString) (h : ∀ c ∈ m, c.val ≤ 0xff) :
    (toLatin1 m).map Fin.val = m.map Fin.val := by
  unfold toLatin1
  rw [List.map_map]
  apply List.map_congr_left
  intro c hc
  simp [qcharToLatin1, h c hc]

theorem handleSocket_expected (k : eOsmoSockets) (p tmpbuff : List Byte) :
    (handleSocket k ⟨true, .datagram p⟩ tmpbuff).1.filter PumpEvent.isFrame =
      [expectedFrame k p] := by
  have hq : (if p.length ≤ 2047 then p else p.take 2047) = p.take (BUFFER_SIZE - 1) := by
    have e : BUFFER_SIZE - 1 = 2047 := by decide
    rw [e]
    by_cases h : p.length ≤ 2047
    · rw [if_pos h, List.take_of_length_le h]
    · rw [if_neg h]
  unfold expectedFrame
  rw [hq, handleSocket_datagram]
  by_cases hlen : BUFFER_SIZE ≤ p.length <;> cases k <;> simp [hlen, PumpEvent.isFrame]

theorem handleSocket_frames (k : eOsmoSockets) (fd : PollFd) (tmpbuff : List Byte) :
    (handleSocket k fd tmpbuff).1.filter PumpEvent.isFrame =
      (readOn k fd).map (fun kp => expectedFrame kp.1 kp.2) := by
  obtain ⟨pin, rc⟩ := fd
  cases pin with
  | false => simp [handleSocket, readOn]
  | true =>
    cases rc with
    | error => simp [handleSocket, recvfrom, readOn, PumpEvent.isFrame]
    | datagram p =>
      rw [handleSocket_expected]
      simp [readOn]

theorem forSockets_frames (clock cmd data : PollFd) (tmpbuff : List Byte) :
    (forSockets [(.CLOCK, clock), (.CMD, cmd), (.DATA, data)] tmpbuff).1.filter
        PumpEvent.isFrame =
      (readOn .CLOCK clock ++ readOn .CMD cmd ++ readOn .DATA data).map
        (fun kp => expectedFrame kp.1 kp.2) := by
  simp only [forSockets, List.filter_append, List.map_append, handleSocket_frames,
    List.filter_nil, List.append_nil, List.append_assoc]

theorem pollLoop_frames (cycles : List PollCycle) (tmpbuff : List Byte) :
    (pollLoop cycles tmpbuff).1.filter PumpEvent.isFrame =
      (datagramsRead cycles).map (fun kp => expectedFrame kp.1 kp.2) := by
  induction cycles generalizing tmpbuff with
  | nil => simp [pollLoop, datagramsRead]
  | cons c rest ih =>
    obtain ⟨i, pl⟩ := c
    cases i with
    | true => simp [pollLoop, datagramsRead]
    | false =>
      cases pl with
      | error => simp [pollLoop, datagramsRead, PumpEvent.isFrame]
      | timeout => simp [pollLoop, datagramsRead, ih]
      | ready a b d =>
        simp only [pollLoop, datagramsRead, List.filter_append, List.map_append,
          forSockets_frames, ih, Bool.false_eq_true, if_false]

theorem datagramsRead_readyOnly (k : eOsmoSockets) (p : List Byte) :
    datagramsRead [⟨false, readyOnly k p⟩] = [(k, p)] := by
  cases k <;> simp [datagramsRead, readyOnly, readOn]

/-- C1: the frames `UdpThread::run` emits are, in order, one frame for each
datagram its polling loop reads, and nothing else: a datagram `p` read on the
socket of channel `k` gives exactly one frame, text for CLOCK and CMD and
binary for DATA, holding `p` when it has at most 2047 bytes and its first
2047 bytes otherwise; the characters of a text frame are the bytes of the
payload, one for one.  The same is stated for the polling loop, for one pass
of its body, and for a cycle in which only the socket of `k` holds `p`. -/
theorem pump_forwards_one_frame (k : eOsmoSockets) (p tmpbuff : List Byte) (q : Queues)
    (cycles : List PollCycle) :
    ((run q tmpbuff cycles).2.1.filter PumpEvent.isFrame =
      (datagramsRead cycles).map (fun kp => expectedFrame kp.1 kp.2)) ∧
    ((pollLoop cycles tmpbuff).1.filter PumpEvent.isFrame =
      (datagramsRead cycles).map (fun kp => expectedFrame kp.1 kp.2)) ∧
    ((run q tmpbuff [⟨false, readyOnly k p⟩]).2.1.filter PumpEvent.isFrame =
      [expectedFrame k p]) ∧
    ((handleSocket k ⟨true, .datagram p⟩ tmpbuff).1.filter PumpEvent.isFrame =
      [if k = .DATA then PumpEvent.WSWriteData (if p.length ≤ 2047 then p else p.take 2047)
       else PumpEvent.WSWriteText
        ((if p.length ≤ 2047 then p else p.take 2047).map latin1ToQChar)]) ∧
    ((if p.length ≤ 2047 then p else p.take 2047).map latin1ToQChar).map Fin.val =
      (if p.length ≤ 2047 then p else p.take 2047).map Fin.val := by
  refine ⟨?_, pollLoop_frames cycles tmpbuff, ?_, handleSocket_expected k p tmpbuff,
    map_val_latin1 _⟩
  · simp only [run]
    exact pollLoop_frames cycles _
  · simp only [run]
    rw [pollLoop_frames, datagramsRead_readyOnly]
    rfl

/-- C2: a text frame goes out in exactly one UDP send, on CLOCK when it
begins with `"IND CLOCK"` and on CMD otherwise (so for every frame shorter
than nine characters, the empty one included); a binary frame goes out in
exactly one UDP send on DATA. -/
theorem frame_routing (st : WsUdpProxy) (ts : timespec) (m : QString) (b : QByteArray)
    (res : Int) :
    (onTextMessageReceived st ts m res).effects.filter Effect.isSendto =
      [Effect.sendto (if IND_CLOCK_text <+: m then .CLOCK else .CMD) (toLatin1 m) true] ∧
    (m.length < 9 →
      (onTextMessageReceived st ts m res).effects.filter Effect.isSendto =
        [Effect.sendto .CMD (toLatin1 m) true]) ∧
    (onBinaryMessageReceived st b res).2.filter Effect.isSendto =
      [Effect.sendto .DATA b false] := by
  refine ⟨onText_sends st ts m res, ?_, ?_⟩
  · intro hlen
    rw [onText_sends]
    have : ¬ IND_CLOCK_text <+: m := by
      intro hp
      have := hp.length_le
      have e : IND_CLOCK_text.length = 9 := by decide
      omega
    rw [if_neg this]
  · unfold onBinaryMessageReceived
    rw [take_data]
    by_cases h : res < 0 <;> simp [h, Effect.isSendto]

/-- Witness for C2: the eight-character frame `"IND CLOC"` goes to CMD. -/
theorem frame_routing_witness :
    (onTextMessageReceived ⟨false, none, none, 0, 0⟩ ⟨0, 0⟩
        [73, 78, 68, 32, 67, 76, 79, 67] 0).effects.filter Effect.isSendto =
      [Effect.sendto .CMD (toLatin1 [73, 78, 68, 32, 67, 76, 79, 67]) true] :=
  (frame_routing ⟨false, none, none, 0, 0⟩ ⟨0, 0⟩ [73, 78, 68, 32, 67, 76, 79, 67] [] 0).2.1
    (by decide)

/-- C3, as stated, fails: the one-character frame U+0100 is sent as the
single byte `?`, which is not the frame's content. -/
theorem text_outside_latin1_not_raw :
    (onTextMessageReceived ⟨false, none, none, 0, 0⟩ ⟨0, 0⟩ [256] 0).effects =
      [Effect.sendto .CMD [63] true] ∧
    ([63] : QByteArray).map Fin.val ≠ ([256] : QString).map Fin.val := by
  decide

/-- C3, amended: when every character of the text frame lies within Latin-1
(NUL included), the bytes handed to the one UDP send are the frame's
characters, one for one and as many. -/
theorem text_latin1_raw (st : WsUdpProxy) (ts : timespec) (m : QString) (res : Int)
    (h : ∀ c ∈ m, c.val ≤ 0xff) :
    ∃ ch payload,
      (onTextMessageReceived st ts m res).effects.filter Effect.isSendto =
        [Effect.sendto ch payload true] ∧
      payload.map Fin.val = m.map Fin.val ∧ payload.length = m.length := by
  refine ⟨_, _, onText_sends st ts m res, toLatin1_val m h, ?_⟩
  simp [toLatin1]

/-- Witness for C3: the frame with characters 0x41, NUL, 0xFF. -/
theorem text_latin1_raw_witness :
    ∃ ch payload,
      (onTextMessageReceived ⟨false, none, none, 0, 0⟩ ⟨0, 0⟩ [65, 0, 255] 0).effects.filter
          Effect.isSendto = [Effect.sendto ch payload true] ∧
      payload.map Fin.val = ([65, 0, 255] : QString).map Fin.val ∧
      payload.length = ([65, 0, 255] : QString).length :=
  text_latin1_raw ⟨false, none, none, 0, 0⟩ ⟨0, 0⟩ [65, 0, 255] 0 (by
    intro c hc
    simp only [List.mem_cons, List.mem_singleton, List.not_mem_nil, or_false] at hc
    rcases hc with rfl | rfl | rfl <;> decide)

/-- C10: for a payload `p` of at most 2047 bytes read on CLOCK or CMD, the
text frame the pump builds is turned back by `onTextMessageReceived` into one
UDP send whose payload is `p` itself. -/
theorem text_round_trip (k : eOsmoSockets) (p tmpbuff : List Byte) (st : WsUdpProxy)
    (ts : timespec) (res : Int) (hk : k ≠ .DATA) (hlen : p.length ≤ 2047) :
    ∃ s ch,
      (handleSocket k ⟨true, .datagram p⟩ tmpbuff).1 = [PumpEvent.WSWriteText s] ∧
      s = fromLatin1 p p.length ∧
      (onTextMessageReceived st ts s res).effects.filter Effect.isSendto =
        [Effect.sendto ch p true] := by
  have hp : p.take (BUFFER_SIZE - 1) = p := List.take_of_length_le (by simpa [BUFFER_SIZE] using hlen)
  have hn : ¬ BUFFER_SIZE ≤ p.length := by
    have e : BUFFER_SIZE = 2048 := rfl
    omega
  have hs : fromLatin1 p p.length = p.map latin1ToQChar := by
    unfold fromLatin1
    rw [List.take_of_length_le (Nat.le_refl _)]
  refine ⟨fromLatin1 p p.length,
    (if IND_CLOCK_text <+: fromLatin1 p p.length then .CLOCK else .CMD), ?_, rfl, ?_⟩
  · rw [handleSocket_datagram, if_neg hn, if_neg hk, hp, hs]
    rfl
  · rw [onText_sends, toLatin1_fromLatin1, List.take_of_length_le (Nat.le_refl _)]

/-- Witness for C10: the payload with bytes 0x41, NUL, 0xFF on CMD. -/
theorem text_round_trip_witness :
    ∃ s ch,
      (handleSocket .CMD ⟨true, .datagram [65, 0, 255]⟩ []).1 = [PumpEvent.WSWriteText s] ∧
      s = fromLatin1 [65, 0, 255] ([65, 0, 255] : List Byte).length ∧
      (onTextMessageReceived ⟨false, none, none, 0, 0⟩ ⟨0, 0⟩ s 0).effects.filter
          Effect.isSendto = [Effect.sendto ch [65, 0, 255] true] :=
  text_round_trip .CMD [65, 0, 255] [] ⟨false, none, none, 0, 0⟩ ⟨0, 0⟩ 0 (by decide) (by decide)

/-! ## The clock indication and the session life cycle -/

theorem getTimestamp_lt (ts : timespec) : getTimestamp ts < 2 ^ 64 := by
  unfold getTimestamp
  have h := Int.emod_lt_of_pos ((ts.tv_sec % 2 ^ 64) * 1000000000 + ts.tv_nsec)
    (by norm_num : (0 : Int) < 2 ^ 64)
  have h0 := Int.emod_nonneg ((ts.tv_sec % 2 ^ 64) * 1000000000 + ts.tv_nsec)
    (by norm_num : (2 : Int) ^ 64 ≠ 0)
  omega

theorem toInt64_sub64 (a b : Nat) (ha : a < 2 ^ 64) (hb : b < 2 ^ 64) (hlt : b < a)
    (hd : a - b < 2 ^ 63) : toInt64 (sub64 a b) = (a : Int) - (b : Int) := by
  have e : sub64 a b = a - b := by
    unfold sub64
    rw [Nat.mod_eq_of_lt ha, Nat.mod_eq_of_lt hb]
    omega
  rw [e]
  unfold toInt64
  have hm : (a - b) % 2 ^ 64 = a - b := Nat.mod_eq_of_lt (by omega)
  rw [hm, if_pos hd]
  omega

theorem onText_clock (st : WsUdpProxy) (ts : timespec) (m : QString) (res : Int)
    (hm : IND_CLOCK_text <+: m) :
    (onTextMessageReceived st ts m res).delta =
        some (toInt64 (sub64 (getTimestamp ts) st.lastind)) ∧
      (onTextMessageReceived st ts m res).st.lastind = getTimestamp ts ∧
      (onTextMessageReceived st ts m res).sockIdx = .CLOCK := by
  have h2 := (strncmp_IND_CLOCK m).2 hm
  unfold onTextMessageReceived
  simp only [h2, if_true, and_self]

/-- C4, as stated, fails: with the stored timestamp 0 and an arrival at
2^63 ns the signed `delta` is -2^63, not the difference 2^63. -/
theorem clock_delta_wraps :
    getTimestamp ⟨9223372036, 854775808⟩ = 2 ^ 63 ∧
    (onTextMessageReceived ⟨false, none, none, 0, 0⟩ ⟨9223372036, 854775808⟩
        IND_CLOCK_text 0).delta = some (-(2 ^ 63)) ∧
    (-(2 ^ 63) : Int) ≠ (2 ^ 63 : Int) - 0 := by
  refine ⟨by decide, ?_, by decide⟩
  rw [(onText_clock _ _ _ _ (List.prefix_refl _)).1]
  decide

/-- C4, amended: for a stored timestamp `t1` and an arrival time `t2` with
`t1 < t2` and `t2 - t1 < 2^63`, a clock indication computes the nanosecond
difference `t2 - t1` exactly and leaves `t2` as the stored timestamp. -/
theorem clock_delta_exact (st : WsUdpProxy) (ts : timespec) (m : QString) (res : Int)
    (hm : IND_CLOCK_text <+: m) (h1 : st.lastind < 2 ^ 64)
    (hlt : st.lastind < getTimestamp ts) (hd : getTimestamp ts - st.lastind < 2 ^ 63) :
    (onTextMessageReceived st ts m res).delta =
        some ((getTimestamp ts : Int) - (st.lastind : Int)) ∧
      (onTextMessageReceived st ts m res).st.lastind = getTimestamp ts := by
  have h := onText_clock st ts m res hm
  refine ⟨?_, h.2.1⟩
  rw [h.1, toInt64_sub64 _ _ (getTimestamp_lt ts) h1 hlt hd]

/-- Witness for C4: stored timestamp 1 s, arrival at 11 s. -/
theorem clock_delta_exact_witness :
    (onTextMessageReceived ⟨false, none, none, 0, 1000000000⟩ ⟨11, 0⟩ IND_CLOCK_text 0).delta =
        some ((getTimestamp ⟨11, 0⟩ : Int) - ((1000000000 : Nat) : Int)) ∧
      (onTextMessageReceived ⟨false, none, none, 0, 1000000000⟩ ⟨11, 0⟩
        IND_CLOCK_text 0).st.lastind = getTimestamp ⟨11, 0⟩ :=
  clock_delta_exact ⟨false, none, none, 0, 1000000000⟩ ⟨11, 0⟩ IND_CLOCK_text 0
    (List.prefix_refl _) (by decide) (by decide) (by decide)

/-- C5, as stated, fails: accepting a connection in server mode with the
stored timestamp 5 leaves 0 in it. -/
theorem accept_resets_lastind :
    (onNewConnection ⟨false, none, none, 0, 5⟩ 1).1.lastind = 0 ∧
    (onNewConnection ⟨false, none, none, 0, 5⟩ 1).1.ws_ = some (.pending 1) ∧
    (onNewConnection ⟨false, none, none, 0, 5⟩ 1).1.lastind ≠
      (⟨false, none, none, 0, 5⟩ : WsUdpProxy).lastind := by
  decide

/-- C5, amended: creating the Session in client mode (`onConnected`) leaves
the stored timestamp as it was; in server mode `onNewConnection` stores 0 in
it when it accepts the connection and leaves it as it was when it rejects. -/
theorem session_creation_lastind (st : WsUdpProxy) (pSocket : Nat) :
    (onConnected st).1.lastind = st.lastind ∧
    (st.ws_ = none → (onNewConnection st pSocket).1.lastind = 0) ∧
    (st.ws_ ≠ none → (onNewConnection st pSocket).1.lastind = st.lastind) := by
  refine ⟨rfl, ?_, ?_⟩
  · intro h
    simp [onNewConnection, h]
  · intro h
    simp [onNewConnection, h]

/-- Witness for C5: stored timestamp 5, no active connection. -/
theorem session_creation_lastind_witness :
    (onConnected ⟨true, none, none, 0, 5⟩).1.lastind = 5 ∧
    (onNewConnection ⟨true, none, none, 0, 5⟩ 1).1.lastind = 0 :=
  ⟨(session_creation_lastind ⟨true, none, none, 0, 5⟩ 1).1,
    (session_creation_lastind ⟨true, none, none, 0, 5⟩ 1).2.1 rfl⟩

/-- C6: with a Session active, `onNewConnection` warns, closes the newly
arrived connection and does nothing else: the state (active connection,
running pump, stored timestamp) is unchanged, the only connection closed is
the new one, and no pump is started, interrupted, terminated or deleted. -/
theorem second_connection_rejected (st : WsUdpProxy) (pSocket : Nat) (h : st.ws_ ≠ none) :
    onNewConnection st pSocket =
      (st, [Effect.qWarning .rejecting, Effect.socketClose (.pending pSocket)]) ∧
    (onNewConnection st pSocket).1.ws_ = st.ws_ ∧
    (onNewConnection st pSocket).1.udpThread_ = st.udpThread_ ∧
    (onNewConnection st pSocket).1.lastind = st.lastind ∧
    Effect.socketClose (.pending pSocket) ∈ (onNewConnection st pSocket).2 ∧
    (∀ s, Effect.socketClose s ∈ (onNewConnection st pSocket).2 → s = .pending pSocket) ∧
    (∀ t, Effect.threadStart t ∉ (onNewConnection st pSocket).2) ∧
    (∀ t, Effect.requestInterruption t ∉ (onNewConnection st pSocket).2) ∧
    (∀ t, Effect.terminate t ∉ (onNewConnection st pSocket).2) ∧
    (∀ t, Effect.deleteThread t ∉ (onNewConnection st pSocket).2) ∧
    (∀ s, Effect.connectSlots s ∉ (onNewConnection st pSocket).2) ∧
    Effect.closed ∉ (onNewConnection st pSocket).2 := by
  have e : onNewConnection st pSocket =
      (st, [Effect.qWarning .rejecting, Effect.socketClose (.pending pSocket)]) := by
    simp [onNewConnection, h]
  rw [e]
  simp

/-- Witness for C6: a second connection while connection 1 is active with
pump 0 running. -/
theorem second_connection_rejected_witness :
    onNewConnection ⟨false, some (.pending 1), some 0, 1, 7⟩ 2 =
      (⟨false, some (.pending 1), some 0, 1, 7⟩,
        [Effect.qWarning .rejecting, Effect.socketClose (.pending 2)]) :=
  (second_connection_rejected ⟨false, some (.pending 1), some 0, 1, 7⟩ 2 (by decide)).1

theorem closed_mem_dispatch (st : WsUdpProxy) (e : Slot) :
    Effect.closed ∈ (dispatch st e).2 ↔ e = .onClosed := by
  cases e with
  | onConnected => simp [dispatch, onConnected]
  | onClosed => simp [dispatch, onClosed]
  | onTextMessageReceived ts m res =>
    simp only [dispatch, onText_effects]
    by_cases h : res < 0 <;> simp [h]
  | onBinaryMessageReceived m res =>
    simp only [dispatch, onBinaryMessageReceived]
    by_cases h : res < 0 <;> simp [h]
  | onNewConnection p =>
    simp only [dispatch, onNewConnection]
    by_cases h : st.ws_ = none <;> simp [h]
  | socketDisconnected w =>
    simp only [dispatch, socketDisconnected]
    cases st.udpThread_ <;> cases w <;> simp
  | WSWriteText d =>
    simp only [dispatch, WSWriteText]
    cases st.ws_ <;> simp
  | WSWriteData d =>
    simp only [dispatch, WSWriteData]
    cases st.ws_ <;> simp

/-- C7: `socketDisconnected` never emits `closed`; it interrupts and deletes
the pump, leaves no connection and no pump, and the next inbound connection
is accepted with a new pump; among all slots only `onClosed` emits
`closed`, and it always does. -/
theorem session_end_keeps_process (st : WsUdpProxy) (waitOk : Bool) (pSocket : Nat) :
    Effect.closed ∉ (socketDisconnected st waitOk).2 ∧
    (socketDisconnected st waitOk).1.ws_ = none ∧
    (socketDisconnected st waitOk).1.udpThread_ = none ∧
    (∀ t, st.udpThread_ = some t →
      Effect.requestInterruption t ∈ (socketDisconnected st waitOk).2 ∧
      Effect.deleteThread t ∈ (socketDisconnected st waitOk).2) ∧
    (onNewConnection (socketDisconnected st waitOk).1 pSocket).1.ws_ = some (.pending pSocket) ∧
    (∃ t, (onNewConnection (socketDisconnected st waitOk).1 pSocket).1.udpThread_ = some t ∧
      Effect.threadStart t ∈ (onNewConnection (socketDisconnected st waitOk).1 pSocket).2) ∧
    Effect.socketClose (.pending pSocket) ∉
      (onNewConnection (socketDisconnected st waitOk).1 pSocket).2 ∧
    (∀ s e, Effect.closed ∈ (dispatch s e).2 ↔ e = .onClosed) := by
  have hws : (socketDisconnected st waitOk).1.ws_ = none := by
    unfold socketDisconnected
    cases st.udpThread_ <;> rfl
  refine ⟨?_, hws, ?_, ?_, ?_, ?_, ?_, closed_mem_dispatch⟩
  · unfold socketDisconnected
    cases st.udpThread_ <;> cases waitOk <;> simp
  · unfold socketDisconnected
    cases h : st.udpThread_ <;> simp [h]
  · intro t ht
    unfold socketDisconnected
    simp [ht]
  · simp [onNewConnection, hws]
  · simp [onNewConnection, hws]
  · simp [onNewConnection, hws]

/-- Witness for C7: the active session of connection 1 with pump 0 ends. -/
theorem session_end_keeps_process_witness :
    Effect.requestInterruption 0 ∈
      (socketDisconnected ⟨false, some (.pending 1), some 0, 1, 7⟩ true).2 ∧
    Effect.deleteThread 0 ∈
      (socketDisconnected ⟨false, some (.pending 1), some 0, 1, 7⟩ true).2 :=
  (session_end_keeps_process ⟨false, some (.pending 1), some 0, 1, 7⟩ true 2).2.2.2.1 0 rfl

/-! ## The loops of the pump -/

/-- The cycles that do not end the polling loop: no interruption requested
and no error return from `poll`. -/
theorem pollLoop_running_iff (cycles : List PollCycle) (tmpbuff : List Byte) :
    (pollLoop cycles tmpbuff).2 = .running ↔
      ∀ c ∈ cycles, c.isInterruptionRequested = false ∧ c.poll ≠ .error := by
  induction cycles generalizing tmpbuff with
  | nil => simp [pollLoop]
  | cons c rest ih =>
    obtain ⟨i, pl⟩ := c
    cases i with
    | true => simp [pollLoop]
    | false =>
      cases pl with
      | error => simp [pollLoop]
      | timeout => simp [pollLoop, ih]
      | ready a b d => simp [pollLoop, ih]

theorem pollLoop_stopped (cycles : List PollCycle) (tmpbuff : List Byte) :
    ((pollLoop cycles tmpbuff).2 = .interrupted →
      ∃ c ∈ cycles, c.isInterruptionRequested = true) ∧
    ((pollLoop cycles tmpbuff).2 = .returned →
      ∃ c ∈ cycles, c.isInterruptionRequested = false ∧ c.poll = .error) := by
  induction cycles generalizing tmpbuff with
  | nil => simp [pollLoop]
  | cons c rest ih =>
    obtain ⟨i, pl⟩ := c
    cases i with
    | true => simp [pollLoop]
    | false =>
      cases pl with
      | error => simp [pollLoop]
      | timeout =>
        have := ih tmpbuff
        simpa [pollLoop] using this
      | ready a b d =>
        have := ih (forSockets [(.CLOCK, a), (.CMD, b), (.DATA, d)] tmpbuff).2
        simpa [pollLoop] using this

/-- C8, as stated, fails: with no interruption requested, an error return
from `poll` makes `run` leave its loop. -/
theorem poll_error_ends_pump :
    pollLoop [⟨false, .error⟩, ⟨false, .timeout⟩] [] =
      ([PumpEvent.qWarning .pollError], .returned) := by
  decide

/-- C8, amended: the polling loop goes on exactly as long as no interruption
is requested and `poll` returns no error; it is left only on a requested
interruption or on an error return from `poll`; an error return from
`recvfrom` is logged, nothing is forwarded for that socket, and the loop goes
on with the next socket. -/
theorem pump_leaves_loop_only (cycles : List PollCycle) (tmpbuff : List Byte)
    (j : eOsmoSockets) (rest : List (eOsmoSockets × PollFd)) :
    ((pollLoop cycles tmpbuff).2 = .running ↔
      ∀ c ∈ cycles, c.isInterruptionRequested = false ∧ c.poll ≠ .error) ∧
    ((pollLoop cycles tmpbuff).2 = .interrupted →
      ∃ c ∈ cycles, c.isInterruptionRequested = true) ∧
    ((pollLoop cycles tmpbuff).2 = .returned →
      ∃ c ∈ cycles, c.isInterruptionRequested = false ∧ c.poll = .error) ∧
    forSockets ((j, ⟨true, .error⟩) :: rest) tmpbuff =
      (PumpEvent.qWarning .recvfromError :: (forSockets rest tmpbuff).1,
        (forSockets rest tmpbuff).2) := by
  refine ⟨pollLoop_running_iff cycles tmpbuff, (pollLoop_stopped cycles tmpbuff).1,
    (pollLoop_stopped cycles tmpbuff).2, ?_⟩
  simp [forSockets, handleSocket, recvfrom]

/-- Witness for C8: a cycle whose three `recvfrom` calls all fail, then an
error return from `poll`. -/
theorem pump_leaves_loop_only_witness :
    ∃ c ∈ [(⟨false, .ready ⟨true, .error⟩ ⟨true, .error⟩ ⟨true, .error⟩⟩ : PollCycle),
        ⟨false, .error⟩],
      c.isInterruptionRequested = false ∧ c.poll = .error :=
  (pump_leaves_loop_only
    [⟨false, .ready ⟨true, .error⟩ ⟨true, .error⟩ ⟨true, .error⟩⟩, ⟨false, .error⟩] []
    .CLOCK []).2.2.1 (by decide)

/-- C9 at the failing input: with a zero-length datagram ahead of the
datagram `"A"` in the CLOCK queue, the start-up loop leaves `"A"` queued. -/
theorem drain_stops_at_empty_datagram :
    (drain ⟨[[], [65]], [], []⟩ []).1 = ⟨[[65]], [], []⟩ ∧
    (run ⟨[[], [65]], [], []⟩ [] [⟨true, .timeout⟩]).1.CLOCK ≠ [] := by
  decide

theorem drainQueue_nonempty (q : List (List Byte)) (tmpbuff : List Byte)
    (h : ∀ p ∈ q, p ≠ []) : (drainQueue q tmpbuff).1 = [] := by
  induction q generalizing tmpbuff with
  | nil => simp [drainQueue]
  | cons p rest ih =>
    have hp : p ≠ [] := h p (List.mem_cons_self _ _)
    have hpos : 0 < p.length := List.length_pos.2 hp
    have hr : ∀ x ∈ rest, x ≠ [] := fun x hx => h x (List.mem_cons_of_mem _ hx)
    have h1 : (0 : Int) < ((p.take BUFFER_SIZE).length : Nat) := by
      have e : BUFFER_SIZE = 2048 := rfl
      rw [List.length_take]
      omega
    simp only [drainQueue, recvfrom, h1, if_true, gt_iff_lt]
    exact ih _ hr

end OsmoWeb
